import Mathlib

/-!
Verification of the konsumscraper repository against its specification.

The Python sources are shallowly embedded: pure string manipulation is
translated to Lean functions over `List Char` (a Python `str` is a sequence
of code points, which `List Char` models exactly), numbers parsed from
decimal text are modelled as exact rationals (`ℚ`), fallible operations
return `Option`, and the stateful crawler/pipeline loops become explicit
state-passing functions.  `BeautifulSoup` element queries are modelled by
record fields holding the text of the queried element (`none` when the
element is absent), which is the interface the scraping code consumes.
-/

namespace Konsum

/-! ## Python string primitives

Each definition mirrors the behaviour of the corresponding Python `str`
method on code-point sequences.
-/

/-- Python whitespace for `str.strip` / `str.split` (ASCII subset; the
catalog strings contain no exotic Unicode whitespace). -/
def isPyWs (c : Char) : Bool :=
  c = ' ' ∨ c = '\t' ∨ c = '\n' ∨ c = '\r' ∨ c = '\x0b' ∨ c = '\x0c'

/-- Python `str.strip()` with no argument: drop whitespace from both ends. -/
def pyStripL (s : List Char) : List Char :=
  ((s.dropWhile isPyWs).reverse.dropWhile isPyWs).reverse

/-- Helper for `splitWsL`: scan the text, `acc` holding the (reversed)
token currently being read. -/
def splitWsAux : List Char → List Char → List (List Char)
  | [], acc => if acc.isEmpty then [] else [acc.reverse]
  | c :: rest, acc =>
    if isPyWs c then
      if acc.isEmpty then splitWsAux rest [] else acc.reverse :: splitWsAux rest []
    else splitWsAux rest (c :: acc)

/-- Python `str.split()` with no argument: split on runs of whitespace,
discarding empty tokens. -/
def splitWsL (s : List Char) : List (List Char) := splitWsAux s []

/-- Python `list.isPrefixOf`-style check used by the primitives below. -/
def isPre : List Char → List Char → Bool
  | [], _ => true
  | _ :: _, [] => false
  | a :: as, b :: bs => a = b && isPre as bs

/-- Python `pat in s` (substring containment). -/
def containsSubL (pat : List Char) : List Char → Bool
  | [] => pat.isEmpty
  | c :: rest => isPre pat (c :: rest) || containsSubL pat rest

/-- Python `s.find(pat)`: index of the first occurrence of `pat` in `s`,
`-1` when absent. -/
def findFromL (pat : List Char) : List Char → Nat → Int
  | [], i => if pat.isEmpty then (i : Int) else -1
  | c :: rest, i => if isPre pat (c :: rest) then (i : Int) else findFromL pat rest (i + 1)

def findL (pat s : List Char) : Int := findFromL pat s 0

/-- Helper for `replaceL`: a positive `skip` means the scanner is still
inside a matched occurrence and drops characters without copying them. -/
def replaceAux (pat rep : List Char) : List Char → Nat → List Char
  | [], _ => []
  | _ :: rest, skip + 1 => replaceAux pat rep rest skip
  | c :: rest, 0 =>
    if pat ≠ [] ∧ isPre pat (c :: rest) then
      rep ++ replaceAux pat rep rest (pat.length - 1)
    else
      c :: replaceAux pat rep rest 0

/-- Python `s.replace(pat, rep)` for non-empty `pat`: replace every
non-overlapping occurrence, scanning left to right.  (The sources never
call `replace` with an empty pattern.) -/
def replaceL (pat rep : List Char) (s : List Char) : List Char :=
  replaceAux pat rep s 0

/-- Helper for `splitSepL`, with the same skip discipline as
`replaceAux`. -/
def splitSepAux (sep : List Char) : List Char → Nat → List (List Char)
  | [], _ => [[]]
  | _ :: rest, skip + 1 => splitSepAux sep rest skip
  | c :: rest, 0 =>
    if sep ≠ [] ∧ isPre sep (c :: rest) then
      [] :: splitSepAux sep rest (sep.length - 1)
    else
      match splitSepAux sep rest 0 with
      | [] => [[c]]
      | piece :: t => (c :: piece) :: t

/-- Python `s.split(sep)` for non-empty `sep`: split at every
non-overlapping occurrence of `sep`, keeping empty pieces
(`"".split(sep) = [""]`). -/
def splitSepL (sep : List Char) (s : List Char) : List (List Char) :=
  splitSepAux sep s 0

/-- Python `sep.join(pieces)`. -/
def joinSepL (sep : List Char) : List (List Char) → List Char
  | [] => []
  | [p] => p
  | p :: q :: t => p ++ sep ++ joinSepL sep (q :: t)

/-- A Python slice index resolved against a string of length `len`
(negative indices count from the end; out-of-range indices are clamped). -/
def pySliceIdx (len : Nat) (i : Int) : Nat :=
  if i < 0 then (max 0 (i + len)).toNat else min i.toNat len

/-- Python `s[a:b]` (slices never raise). -/
def pySliceL (s : List Char) (a b : Int) : List Char :=
  let lo := pySliceIdx s.length a
  let hi := pySliceIdx s.length b
  (s.drop lo).take (hi - lo)

/-- Python `str.lower()` restricted to the characters the catalog uses:
ASCII letters plus the German upper-case umlauts.  (Full Unicode case
folding is not modelled; no claim depends on other characters.) -/
def pyLowerC (c : Char) : Char :=
  if 'A' ≤ c ∧ c ≤ 'Z' then Char.ofNat (c.toNat + 32)
  else if c = 'Ä' then 'ä'
  else if c = 'Ö' then 'ö'
  else if c = 'Ü' then 'ü'
  else c

def pyLowerL (s : List Char) : List Char := s.map pyLowerC

/-! String-level wrappers. -/

def pyStrip (s : String) : String := String.mk (pyStripL s.data)

def pySplitWs (s : String) : List String := (splitWsL s.data).map String.mk

def containsSub (pat s : String) : Bool := containsSubL pat.data s.data

def pyFind (s pat : String) : Int := findL pat.data s.data

def pyReplace (s pat rep : String) : String :=
  String.mk (replaceL pat.data rep.data s.data)

def pySplitSep (s sep : String) : List String :=
  (splitSepL sep.data s.data).map String.mk

def pySlice (s : String) (a b : Int) : String := String.mk (pySliceL s.data a b)

def pyLower (s : String) : String := String.mk (pyLowerL s.data)

def joinSep (sep : String) (pieces : List String) : String :=
  String.mk (joinSepL sep.data (pieces.map String.data))

/-! ## Python `float()`

Numeric conversion is modelled with exact rationals: `float("3.98")` is
rendered as the rational `398/100`.  (IEEE-754 rounding, `inf`/`nan`
literals and digit-group underscores are not modelled; no catalog string
and no claim exercises them.)  The accepted grammar is Python's
`[+-]? ( digits [. digits?] | . digits ) ( [eE] [+-]? digits )?`,
surrounded by optional whitespace.
-/

def digitsToNat (ds : List Char) : Nat :=
  ds.foldl (fun a c => 10 * a + (c.toNat - 48)) 0

/-- Consume an optional leading sign; returns (isNegative, rest). -/
def parseSignL : List Char → Bool × List Char
  | '+' :: r => (false, r)
  | '-' :: r => (true, r)
  | s => (false, s)

/-- The rational `± mant / 10 ^ scale · 10 ^ e`, assembled with integer
arithmetic only (so that the kernel can evaluate it). -/
def decToRat (neg : Bool) (mant : Nat) (scale : Nat) (e : Int) : ℚ :=
  let num : Int := if neg then -(mant : Int) else (mant : Int)
  if 0 ≤ e then
    if scale ≤ e.toNat then mkRat (num * ((10 ^ (e.toNat - scale) : Nat) : Int)) 1
    else mkRat num (10 ^ (scale - e.toNat))
  else mkRat num (10 ^ (scale + (-e).toNat))

/-- Parse the optional exponent suffix; `none` on a malformed tail. -/
def parseExpL : List Char → Option Int
  | [] => some 0
  | e :: r =>
    if e = 'e' ∨ e = 'E' then
      let (neg, r1) := parseSignL r
      let ds := r1.takeWhile Char.isDigit
      if ds ≠ [] ∧ r1.dropWhile Char.isDigit = [] then
        some (if neg then -(digitsToNat ds : Int) else (digitsToNat ds : Int))
      else none
    else none

def parseFloatCore (s : List Char) : Option ℚ :=
  let (neg, s1) := parseSignL s
  let ip := s1.takeWhile Char.isDigit
  let s2 := s1.dropWhile Char.isDigit
  match s2 with
  | '.' :: s3 =>
    let fp := s3.takeWhile Char.isDigit
    let s4 := s3.dropWhile Char.isDigit
    if ip = [] ∧ fp = [] then none
    else (parseExpL s4).map (fun e => decToRat neg (digitsToNat (ip ++ fp)) fp.length e)
  | _ =>
    if ip = [] then none
    else (parseExpL s2).map (fun e => decToRat neg (digitsToNat ip) 0 e)

/-- Python `float(s)`: `some q` on success, `none` when `float` raises
`ValueError`. -/
def pyFloat (s : String) : Option ℚ := parseFloatCore (pyStripL s.data)

/-! ## `urllib.parse.quote`

Percent-encoding of the UTF-8 bytes of a string, leaving unreserved
characters and the default safe character `/` unescaped. -/

/-- UTF-8 byte sequence of a code point. -/
def utf8Bytes (c : Char) : List Nat :=
  let n := c.toNat
  if n < 0x80 then [n]
  else if n < 0x800 then [0xC0 + n / 0x40, 0x80 + n % 0x40]
  else if n < 0x10000 then
    [0xE0 + n / 0x1000, 0x80 + n / 0x40 % 0x40, 0x80 + n % 0x40]
  else
    [0xF0 + n / 0x40000, 0x80 + n / 0x1000 % 0x40, 0x80 + n / 0x40 % 0x40,
     0x80 + n % 0x40]

def hexDigit (n : Nat) : Char :=
  if n < 10 then Char.ofNat (48 + n) else Char.ofNat (55 + n)

/-- Characters `urllib.parse.quote` leaves unescaped with the default
`safe='/'`: ASCII alphanumerics, `_.-~`, and `/`. -/
def quoteSafe (c : Char) : Bool :=
  ('A' ≤ c ∧ c ≤ 'Z') ∨ ('a' ≤ c ∧ c ≤ 'z') ∨ ('0' ≤ c ∧ c ≤ '9') ∨
  c = '_' ∨ c = '.' ∨ c = '-' ∨ c = '~' ∨ c = '/'

def quoteL (s : List Char) : List Char :=
  s.flatMap (fun c =>
    if quoteSafe c then [c]
    else (utf8Bytes c).flatMap (fun b => ['%', hexDigit (b / 16), hexDigit (b % 16)]))

/-- `urllib.parse.quote(s)` with the default safe characters. -/
def pyQuote (s : String) : String := String.mk (quoteL s.data)

/-! ## Python `dict` as an insertion-ordered association list -/

/-- `d[k] = v`: update in place when the key exists, append otherwise. -/
def dictInsert {α : Type} (k : String) (v : α) :
    List (String × α) → List (String × α)
  | [] => [(k, v)]
  | (k', v') :: rest =>
    if k' = k then (k', v) :: rest else (k', v') :: dictInsert k v rest

/-- `d.get(k)` / `k in d`. -/
def dictLookup {α : Type} (k : String) : List (String × α) → Option α
  | [] => none
  | (k', v') :: rest => if k' = k then some v' else dictLookup k rest

/-! ## `page_downloader.py` -/

/-- Outcome of one `requests.get` network attempt. -/
inductive FetchOutcome where
  | success (content : String)
  | httpError (status : Nat)
  | timeout
  | connectionError
deriving DecidableEq

/-- The `requests` exceptions the module can see; every one of them is a
subclass of `requests.exceptions.RequestException`. -/
inductive RequestExn where
  | httpError (status : Nat)
  | timeout
  | connectionError
deriving DecidableEq

/-- `requests.get(url)` followed by `response.raise_for_status()`: the body
on a success status, a raised `RequestException` otherwise. -/
def getAndRaiseForStatus : FetchOutcome → Except RequestExn String
  | .success content => .ok content
  | .httpError st => .error (.httpError st)
  | .timeout => .error .timeout
  | .connectionError => .error .connectionError

/-- `PageDownloader.download_page`.  `net i` is the outcome the network
would return for the `i`-th attempt of this call; the result is paired
with the number of attempts actually made.  The `save_to_file` side
channel (pure file I/O on success) is omitted.  The function is total —
the `except requests.exceptions.RequestException` handler turns every
failure into `None`, so no exception escapes. -/
def downloadPage (net : Nat → FetchOutcome) : Option String × Nat :=
  match getAndRaiseForStatus (net 0) with
  | .ok content => (some content, 1)
  | .error _ => (none, 1)

/-! ## Data model (`product_scraper.py` dataclasses)

Numeric values are exact rationals; `datetime.now()` is modelled as an
externally supplied clock value. -/

structure NutrientValue where
  value : Option ℚ := none
  unit : Option String := none
deriving DecidableEq

structure NutritionInfo where
  serving_size : Option String := none
  energy_kcal : Option NutrientValue := none
  energy_kj : Option NutrientValue := none
  fat_total : Option NutrientValue := none
  fat_saturated : Option NutrientValue := none
  carbohydrates_total : Option NutrientValue := none
  carbohydrates_sugar : Option NutrientValue := none
  protein : Option NutrientValue := none
  salt : Option NutrientValue := none
  fiber : Option NutrientValue := none
  raw_values : List (String × String) := []
deriving DecidableEq

structure Product where
  id : String
  url : String
  name : String
  price : ℚ
  unit_price : Option ℚ
  unit : String
  category_path : String
  description : Option String
  ingredients : Option String
  nutrition : NutritionInfo
  allergens : List String
  scrape_date : Nat
deriving DecidableEq

/-- The BeautifulSoup view of a product page: each field holds the text of
the element the scraper queries (`soup.find(...)...text`), `none` when the
element is absent; `nutritionRows` holds the (first column, second column)
text of each row of the two-column nutrition table. -/
structure ProductPage where
  title : Option String := none
  priceContent : Option String := none
  priceUnit : Option String := none
  description : Option String := none
  ingredients : Option String := none
  allergens : Option String := none
  nutritionRows : List (String × String) := []
deriving DecidableEq

/-! ## `product_scraper.py` extraction functions -/

/-- `ProductScraper._parse_value_and_unit`: split the stripped text on
whitespace, replace the decimal comma of the first token, `float` it; the
second token (when present) is the unit.  The `except (ValueError,
IndexError)` handler returns a fresh `NutrientValue()` — both fields
`None` — whenever `float` raises; no index access can raise here. -/
def parseValueAndUnit (value_str : String) : NutrientValue :=
  match pySplitWs (pyStrip value_str) with
  | [] => {}
  | tok :: rest =>
    let numeric_str := pyReplace tok "," "."
    let unit := rest.head?
    match pyFloat numeric_str with
    | none => {}
    | some v => { value := some v, unit := unit }

/-- `unit_text[unit_text.find("(")+1 : unit_text.find("€")].strip()` from
`_extract_price_info`. -/
def pricePartOf (unit_text : String) : String :=
  pyStrip (pySlice unit_text (pyFind unit_text "(" + 1) (pyFind unit_text "€"))

/-- `unit_text[unit_text.find("/")+1 : unit_text.find(")")].strip()` from
`_extract_price_info`. -/
def unitPartOf (unit_text : String) : String :=
  pyStrip (pySlice unit_text (pyFind unit_text "/" + 1) (pyFind unit_text ")"))

/-- The unit-price branch of `ProductScraper._extract_price_info`, given
the text of the `div.price--unit` element.  Slicing, `find`, `strip` and
`replace` never raise in Python; the only raise point inside the `try`
block is `float`, which runs after `unit` has already been assigned — so a
`ValueError` leaves the extracted unit text in place while `unit_price`
stays `None`. -/
def extractUnitPrice (raw : String) : Option ℚ × String :=
  let unit_text := pyStrip raw
  let price_part := pricePartOf unit_text
  let unit := unitPartOf unit_text
  match pyFloat (pyReplace price_part "," ".") with
  | some v => (some v, unit)
  | none => (none, unit)

/-- `ProductScraper._extract_price_info`: returns (price, unit_price,
unit), with a `0.0` sentinel price and `(None, "")` unit data when the
respective elements are absent or unparsable. -/
def extractPriceInfo (page : ProductPage) : ℚ × Option ℚ × String :=
  let price : ℚ :=
    match page.priceContent with
    | none => 0
    | some t =>
      match pyFloat (pyStrip (pyReplace (pyReplace (pyStrip t) "€" "") "," ".")) with
      | none => 0
      | some v => v
  match page.priceUnit with
  | none => (price, none, "")
  | some raw =>
    let r := extractUnitPrice raw
    (price, r.1, r.2)

/-- Modelled from the spec: the classification of one nutrition-table row.
The head of `ProductScraper._extract_nutrition_info` — the row iteration,
the label lower-casing, the `raw_values` population and the
portion/serving and energie/energy rules — is missing from `src/`
(`product_scraper.py` is truncated immediately before line 162), and the
helper `_parse_numeric_value` it calls is defined nowhere under `src/`.
Those parts follow the spec (§4.5): the label is the lower-cased first
column, every row is recorded in `raw_values`, portion/serving labels
store the raw text in `serving_size`, energie/energy labels feed the
kcal/kJ slots guarded by the value text, and `_parse_numeric_value` is the
numeric-with-unit parse that `_parse_value_and_unit` implements.  The
fett/fat, kohlenhydrate/carbohydrate, protein, salz/salt and
ballaststoffe/fiber branches are present in `src/` (lines 165–180) and are
translated directly, including their `elif` ordering. -/
def classifyRow (n : NutritionInfo) (label value : String) : NutritionInfo :=
  let nutrient := pyLower label
  let n := { n with raw_values := dictInsert nutrient value n.raw_values }
  if containsSub "portion" nutrient || containsSub "serving" nutrient then
    { n with serving_size := some value }
  else if containsSub "energie" nutrient || containsSub "energy" nutrient then
    if containsSub "kcal" (pyLower value) then
      { n with energy_kcal := some (parseValueAndUnit value) }
    else if containsSub "kj" (pyLower value) then
      { n with energy_kj := some (parseValueAndUnit value) }
    else n
  else if containsSub "fett" nutrient || containsSub "fat" nutrient then
    if containsSub "davon" nutrient || containsSub "saturated" nutrient then
      { n with fat_saturated := some (parseValueAndUnit value) }
    else
      { n with fat_total := some (parseValueAndUnit value) }
  else if containsSub "kohlenhydrate" nutrient || containsSub "carbohydrate" nutrient then
    if containsSub "zucker" nutrient || containsSub "sugar" nutrient then
      { n with carbohydrates_sugar := some (parseValueAndUnit value) }
    else
      { n with carbohydrates_total := some (parseValueAndUnit value) }
  else if containsSub "protein" nutrient || containsSub "eiweiß" nutrient then
    { n with protein := some (parseValueAndUnit value) }
  else if containsSub "salz" nutrient || containsSub "salt" nutrient then
    { n with salt := some (parseValueAndUnit value) }
  else if containsSub "ballaststoffe" nutrient || containsSub "fiber" nutrient then
    { n with fiber := some (parseValueAndUnit value) }
  else n

/-- `ProductScraper._extract_nutrition_info` over the rows of the
nutrition table (empty table: all slots `none`, empty `raw_values`). -/
def extractNutritionInfo (rows : List (String × String)) : NutritionInfo :=
  rows.foldl (fun n r => classifyRow n r.1 r.2) {}

/-- `url.split('/')[-1]`, the product-id derivation in
`_parse_product_page` (Python `split` with a separator always returns a
non-empty list, so `[-1]` is its last element). -/
def productId (url : String) : String := (pySplitSep url "/").getLastD ""

/-- `ProductScraper._parse_product_page`: `None` when the
`h1.product--title` element is absent, otherwise a `Product` with each
optional region degraded independently.  `datetime.now()` is the `now`
parameter. -/
def parseProductPage (page : ProductPage) (url category_path : String)
    (now : Nat) : Option Product :=
  match page.title with
  | none => none
  | some titleText =>
    some {
      id := productId url
      url := url
      name := pyStrip titleText
      price := (extractPriceInfo page).1
      unit_price := (extractPriceInfo page).2.1
      unit := (extractPriceInfo page).2.2
      category_path := category_path
      description := page.description.map pyStrip
      ingredients := page.ingredients.map pyStrip
      allergens :=
        match page.allergens with
        | none => []
        | some t => (pySplitSep t ",").map pyStrip
      nutrition := extractNutritionInfo page.nutritionRows
      scrape_date := now
    }

/-! ## Category-path → URL projection -/

def baseUrl : String := "https://www.konsum-leipzig.de"

/-- `ProductScraper._get_category_url`. -/
def getCategoryUrl (category_path : String) : String :=
  let category_parts := pySplitSep (pyReplace category_path "Alle Produkte > " "") " > "
  let url_path := joinSep "/" (category_parts.map (fun part => pyQuote (pyLower part)))
  baseUrl ++ "/online-bestellen/alle-produkte/" ++ url_path ++ "/"

/-- `CategoryScraper._create_url_from_category`: the identical computation,
wrapped in a `try/except` whose handler is dead code (no statement in the
body can raise). -/
def createUrlFromCategory (category_path : String) : String :=
  let category_parts := pySplitSep (pyReplace category_path "Alle Produkte > " "") " > "
  let url_path := joinSep "/" (category_parts.map (fun part => pyQuote (pyLower part)))
  baseUrl ++ "/online-bestellen/alle-produkte/" ++ url_path ++ "/"

/-- The projection exactly as the spec words it (§4.2): lower-case each
label of the CategoryPath, percent-encode it, join the encoded segments
with "/", and place the result under the fixed listing prefix with a
trailing slash. -/
def projectorSpec (labels : List String) : String :=
  baseUrl ++ "/online-bestellen/alle-produkte/" ++
    joinSep "/" (labels.map (fun l => pyQuote (pyLower l))) ++ "/"

/-- The final non-empty path segment of a URL, as the spec words it
(claim C9): the last piece of the "/"-split after empty pieces are
discarded. -/
def finalNonEmptySegment (url : String) : String :=
  ((pySplitSep url "/").filter (fun piece => piece ≠ "")).getLastD ""

/-! ## `category_scraper.py` — the taxonomy walker -/

/-- The BeautifulSoup view of a category page: `breadcrumb` is the return
value of `CategoryScraper.extract_breadcrumb_path` (the " > "-joined trail
of the breadcrumb anchors after the first, `none` when the nav element is
absent or holds no trailing anchors), and `links` are the `href`
attributes of the `a.navigation--link` anchors inside
`div.sidebar--categories-navigation` (empty when the sidebar is absent). -/
structure CategoryPage where
  breadcrumb : Option String := none
  links : List String := []
deriving DecidableEq

/-- The site as the walker sees it: the parsed page for each URL, `none`
when the download fails (or returns a body Python treats as falsy). -/
def CategorySite : Type := String → Option CategoryPage

structure CrawlState where
  visited_urls : List String := []
  category_map : List (String × String) := []
  /-- Log of the URLs passed to `downloader.download_page`, in call order.
  Not part of the Python object state; it records the fetch events that
  the visit-once claims quantify over. -/
  downloads : List String := []
deriving DecidableEq

/-- `urljoin(self.base_url, href)` restricted to the href shapes the site
serves: absolute URLs are returned unchanged and root-relative paths are
appended to the base (path-relative resolution is not modelled — every
crawled href contains the absolute `/online-bestellen/alle-produkte/`
path). -/
def pyUrljoin (base href : String) : String :=
  if containsSub "://" href then href else base ++ href

/-- One iteration of the `for link in subcategory_links:` loop of
`scrape_categories`: follow the href when it contains the taxonomy prefix
and its joined URL is not yet visited; `rec` is the recursive call into
`scrape_categories`. -/
def linkStep (rec : String → CrawlState → CrawlState) (href : String)
    (s : CrawlState) : CrawlState :=
  if containsSub "/online-bestellen/alle-produkte/" href then
    let full_url := pyUrljoin baseUrl href
    if full_url ∈ s.visited_urls then s
    else rec full_url s
  else s

/-- The whole `for link in subcategory_links:` loop. -/
def scrapeLinks (rec : String → CrawlState → CrawlState) :
    List String → CrawlState → CrawlState
  | [], s => s
  | href :: rest, s => scrapeLinks rec rest (linkStep rec href s)

/-- The `if category_path: self.category_map[category_path] = url` block of
`scrape_categories`: a Python-truthy breadcrumb path is stored through
plain `dict` assignment. -/
def storeBreadcrumb (url : String) (bc : Option String)
    (s : CrawlState) : CrawlState :=
  match bc with
  | some path =>
    if path = "" then s
    else { s with category_map := dictInsert path url s.category_map }
  | none => s

/-- The body of `CategoryScraper.scrape_categories(url)`: skip visited
URLs, mark the URL visited *before* downloading, store the breadcrumb
mapping, then walk the sidebar links with `rec` as the recursive call. -/
def scrapeCategoriesStep (site : CategorySite)
    (rec : String → CrawlState → CrawlState) (url : String)
    (s : CrawlState) : CrawlState :=
  if url ∈ s.visited_urls then s
  else
    let s1 : CrawlState :=
      { s with visited_urls := url :: s.visited_urls,
               downloads := s.downloads ++ [url] }
    match site url with
    | none => s1
    | some page => scrapeLinks rec page.links (storeBreadcrumb url page.breadcrumb s1)

/-- `CategoryScraper.scrape_categories` with a recursion-depth bound
`fuel` (Python's call stack is likewise finite); the theorems below hold
for every fuel value. -/
def scrapeCategories (site : CategorySite) : Nat → String → CrawlState → CrawlState
  | 0 => fun _ s => s
  | fuel + 1 => scrapeCategoriesStep site (scrapeCategories site fuel)

/-! ## `product_scraper.py` — the crawl pipeline -/

/-- The environment of one scraper session.  `listingOf` gives, for a
category URL, the product URLs that `_extract_product_urls` extracts from
the downloaded listing body (`none` = the download failed or the body was
falsy); `productPageOf` gives the parsed product page for a product URL
(`none` = the download failed); `now` is the session clock standing in
for `datetime.now()`. -/
structure ScrapeEnv where
  listingOf : String → Option (List String)
  productPageOf : String → Option ProductPage
  now : Nat

structure ScrapeState where
  products_cache : List (String × Product) := []
  /-- Log of every URL passed to `downloader.download_page`, in call
  order. -/
  fetched : List String := []

/-- The `for url in product_urls:` loop of `ProductScraper.scrape_category`:
cache hit → append the cached product and continue without fetching;
cache miss → fetch, parse, and cache only a successfully parsed product.
The courtesy `time.sleep(1)` is untimed. -/
def scrapeProducts (env : ScrapeEnv) (category_path : String) :
    List String → List Product → ScrapeState → List Product × ScrapeState
  | [], acc, st => (acc, st)
  | url :: rest, acc, st =>
    match dictLookup url st.products_cache with
    | some p => scrapeProducts env category_path rest (acc ++ [p]) st
    | none =>
      let st1 := { st with fetched := st.fetched ++ [url] }
      match env.productPageOf url with
      | none => scrapeProducts env category_path rest acc st1
      | some page =>
        match parseProductPage page url category_path env.now with
        | none => scrapeProducts env category_path rest acc st1
        | some p =>
          scrapeProducts env category_path rest (acc ++ [p])
            { st1 with products_cache := dictInsert url p st1.products_cache }

/-- `ProductScraper.scrape_category`: resolve the category URL, fetch the
listing (a failure skips the category with an empty product list), then
run the product loop. -/
def scrapeCategory (env : ScrapeEnv) (category_path : String)
    (st : ScrapeState) : List Product × ScrapeState :=
  let category_url := getCategoryUrl category_path
  let st1 := { st with fetched := st.fetched ++ [category_url] }
  match env.listingOf category_url with
  | none => ([], st1)
  | some product_urls => scrapeProducts env category_path product_urls [] st1

/-- `ProductScraper.scrape_all_selected_categories` over an explicit
category list (the `test_mode` truncation and the final `save_products`
call are orchestration outside the loop). -/
def scrapeAllSelected (env : ScrapeEnv) :
    List String → List Product → ScrapeState → List Product × ScrapeState
  | [], acc, st => (acc, st)
  | category :: rest, acc, st =>
    let r := scrapeCategory env category st
    scrapeAllSelected env rest (acc ++ r.1) r.2

/-- The maximal suffix of `s` following the last `'/'`. -/
def lastSegSlash : List Char → List Char
  | [] => []
  | c :: rest =>
    if c = '/' || rest.contains '/' then lastSegSlash rest else c :: rest

/-- The visit-once invariant: the download log has no duplicates and every
downloaded URL is marked visited. -/
def WalkerInv (s : CrawlState) : Prop :=
  s.downloads.Nodup ∧ ∀ u ∈ s.downloads, u ∈ s.visited_urls

/-- Shape of the per-function induction step: the invariant is preserved
and the visited set only grows. -/
def PreservesInv (f : CrawlState → CrawlState) : Prop :=
  ∀ s, WalkerInv s → WalkerInv (f s) ∧ s.visited_urls ⊆ (f s).visited_urls

/-! ## Concrete scenario inputs used by the claim theorems -/

/-- A network behaviour whose first attempt times out and whose second
attempt would succeed. -/
def flakyNet : Nat → FetchOutcome :=
  fun i => if i = 0 then FetchOutcome.timeout else FetchOutcome.success "recovered"

/-- A network behaviour that always succeeds. -/
def goodNet : Nat → FetchOutcome := fun _ => FetchOutcome.success "body"

def demoStart : String := baseUrl ++ "/online-bestellen/alle-produkte/"

def demoA : String := baseUrl ++ "/online-bestellen/alle-produkte/a/"

def demoB : String := baseUrl ++ "/online-bestellen/alle-produkte/b/"

/-- A taxonomy in which two distinct pages (`demoA`, fetched first, and
`demoB`) carry the same breadcrumb path "Obst". -/
def overwriteSite : CategorySite := fun url =>
  if url = demoStart then some { breadcrumb := none, links := [demoA, demoB] }
  else if url = demoA then some { breadcrumb := some "Obst", links := [] }
  else if url = demoB then some { breadcrumb := some "Obst", links := [] }
  else none

/-- A taxonomy whose root page carries two links to the same URL. -/
def dupLinkSite : CategorySite := fun url =>
  if url = demoStart then some { breadcrumb := none, links := [demoA, demoA] }
  else if url = demoA then some { breadcrumb := some "A", links := [] }
  else none

def cat1 : String := "Alle Produkte > Obst"

def cat2 : String := "Alle Produkte > Brot"

def failUrl : String := baseUrl ++ "/online-bestellen/alle-produkte/obst/123/item"

/-- A session in which every category listing carries the same product URL,
whose page never downloads. -/
def failEnv : ScrapeEnv :=
  { listingOf := fun _ => some [failUrl]
    productPageOf := fun _ => none
    now := 0 }

def okUrl : String := baseUrl ++ "/online-bestellen/alle-produkte/obst/123/apfel"

def okPage : ProductPage := { title := some "Apfel" }

/-- A session in which every category listing carries the same product URL,
whose page downloads and parses successfully. -/
def okEnv : ScrapeEnv :=
  { listingOf := fun _ => some [okUrl]
    productPageOf := fun url => if url = okUrl then some okPage else none
    now := 7 }

/-- The product `okEnv` yields when `okUrl` is first parsed under `cat1`. -/
def okPr : Product :=
  { id := "apfel", url := okUrl, name := "Apfel", price := 0,
    unit_price := none, unit := "", category_path := cat1,
    description := none, ingredients := none, nutrition := {},
    allergens := [], scrape_date := 7 }

/-- A product page with only a title, for degradation checks. -/
def demoPage : ProductPage := { title := some "  Alnatura Bio Sauerkirschen  " }

/-- A product URL with a trailing slash. -/
def trailingUrl : String :=
  baseUrl ++ "/online-bestellen/alle-produkte/20163/alnatura-bio-sauerkirschen/"

/-! ## Lemmas about the string primitives -/

theorem isPre_append (l m : List Char) : isPre l (l ++ m) = true := by
  induction l with
  | nil => rfl
  | cons c t ih => simpa [isPre] using ih

theorem replaceAux_skip (pat rep : List Char) (l rest : List Char) :
    replaceAux pat rep (l ++ rest) l.length = replaceAux pat rep rest 0 := by
  induction l with
  | nil => rfl
  | cons c t ih => simpa [replaceAux] using ih

/-- Replacing at a position where the pattern matches consumes the whole
pattern. -/
theorem replaceAux_match (pat rep s : List Char) (hne : pat ≠ []) :
    replaceAux pat rep (pat ++ s) 0 = rep ++ replaceAux pat rep s 0 := by
  match pat, hne with
  | p :: ps, _ =>
    show replaceAux (p :: ps) rep (p :: (ps ++ s)) 0 = _
    rw [replaceAux]
    rw [if_pos ⟨by simp, by simpa using isPre_append (p :: ps) s⟩]
    have : (p :: ps).length - 1 = ps.length := by simp
    rw [this, replaceAux_skip]

/-- Replacement is the identity when the pattern does not occur. -/
theorem replaceAux_no_occ (pat rep s : List Char)
    (h : containsSubL pat s = false) : replaceAux pat rep s 0 = s := by
  induction s with
  | nil => rfl
  | cons c rest ih =>
    rw [containsSubL, Bool.or_eq_false_iff] at h
    rw [replaceAux, if_neg (by simp [h.1]), ih h.2]

theorem splitSepAux_skip (sep : List Char) (l rest : List Char) :
    splitSepAux sep (l ++ rest) l.length = splitSepAux sep rest 0 := by
  induction l with
  | nil => rfl
  | cons c t ih => simpa [splitSepAux] using ih

theorem splitSepAux_ne_nil (sep s : List Char) : splitSepAux sep s 0 ≠ [] := by
  match s with
  | [] => simp [splitSepAux]
  | c :: rest =>
    rw [splitSepAux]
    split
    · simp
    · split <;> simp

/-- The separator `" > "` cannot match at a position whose following
character is not `'>'`. -/
theorem isPre_gt_false (c : Char) (z : List Char) (h : z.head? ≠ some '>') :
    isPre [' ', '>', ' '] (c :: z) = false := by
  match z with
  | [] => simp [isPre]
  | d :: zt =>
    have hd : ('>' = d) = False := by
      simp only [List.head?] at h
      simp only [eq_iff_iff, iff_false]
      exact fun hh => h (by rw [hh])
    simp [isPre, hd]

/-- A label free of `'>'` is a single split piece. -/
theorem splitSep_gt_single (l : List Char) (h : '>' ∉ l) :
    splitSepAux [' ', '>', ' '] l 0 = [l] := by
  induction l with
  | nil => rfl
  | cons c rest ih =>
    have hpre : isPre [' ', '>', ' '] (c :: rest) = false := by
      apply isPre_gt_false
      cases rest with
      | nil => simp
      | cons d t =>
        have : d ≠ '>' := fun hh => h (by simp [hh])
        simpa using this
    rw [splitSepAux, if_neg (by simp [hpre]),
        ih (fun hm => h (List.mem_cons_of_mem _ hm))]

/-- Splitting at an explicit `" > "` boundary after a `'>'`-free label. -/
theorem splitSep_gt_boundary (l rest : List Char) (h : '>' ∉ l) :
    splitSepAux [' ', '>', ' '] (l ++ (' ' :: '>' :: ' ' :: rest)) 0
      = l :: splitSepAux [' ', '>', ' '] rest 0 := by
  induction l with
  | nil =>
    show splitSepAux [' ', '>', ' '] (' ' :: '>' :: ' ' :: rest) 0 = _
    rw [splitSepAux,
        if_pos ⟨by simp, by simpa using isPre_append [' ', '>', ' '] rest⟩]
    have hskip := splitSepAux_skip [' ', '>', ' '] ['>', ' '] rest
    simpa using hskip
  | cons c t ih =>
    have hpre : isPre [' ', '>', ' '] (c :: (t ++ (' ' :: '>' :: ' ' :: rest))) = false := by
      apply isPre_gt_false
      cases t with
      | nil => simp
      | cons d tt =>
        have : d ≠ '>' := fun hh => h (by simp [hh])
        simpa using this
    show splitSepAux [' ', '>', ' '] (c :: (t ++ (' ' :: '>' :: ' ' :: rest))) 0 = _
    rw [splitSepAux, if_neg (by simp [hpre]),
        ih (fun hm => h (List.mem_cons_of_mem _ hm))]

/-- Splitting the `" > "`-join of `'>'`-free labels recovers the labels. -/
theorem splitSep_gt_join (labels : List (List Char)) (hne : labels ≠ [])
    (h : ∀ l ∈ labels, '>' ∉ l) :
    splitSepAux [' ', '>', ' '] (joinSepL [' ', '>', ' '] labels) 0 = labels := by
  match labels, hne with
  | [l], _ =>
    exact splitSep_gt_single l (h l (by simp))
  | l :: l2 :: t, _ =>
    rw [joinSepL]
    have hform : l ++ [' ', '>', ' '] ++ joinSepL [' ', '>', ' '] (l2 :: t)
        = l ++ (' ' :: '>' :: ' ' :: joinSepL [' ', '>', ' '] (l2 :: t)) := by
      simp
    rw [hform, splitSep_gt_boundary l _ (h l (by simp)),
        splitSep_gt_join (l2 :: t) (by simp)
          (fun x hx => h x (List.mem_cons_of_mem _ hx))]

theorem splitSlash_single (s : List Char) (h : s.contains '/' = false) :
    splitSepAux ['/'] s 0 = [s] := by
  induction s with
  | nil => rfl
  | cons c rest ih =>
    rw [List.contains_cons, Bool.or_eq_false_iff] at h
    have hc : ('/' = c) = False := by
      simp only [eq_iff_iff, iff_false]
      intro hh
      rw [← hh] at h
      simpa using h.1
    rw [splitSepAux, if_neg (by simp [isPre, hc]), ih h.2]

/-- The guard of the matching branch of `splitSepAux ['/']` holds exactly
when the current character is `'/'`. -/
theorem splitCond_slash (c : Char) (rest : List Char) :
    (['/'] ≠ [] ∧ isPre ['/'] (c :: rest) = true) ↔ '/' = c := by
  simp [isPre]

theorem getLastD_indep {α : Type} (a : α) (l : List α) (d d' : α) :
    (a :: l).getLastD d = (a :: l).getLastD d' := by
  rw [List.getLastD_cons, List.getLastD_cons]

theorem splitSlash_single_inv (s piece : List Char)
    (h : splitSepAux ['/'] s 0 = [piece]) :
    piece = s ∧ s.contains '/' = false := by
  induction s generalizing piece with
  | nil =>
    simp only [splitSepAux] at h
    exact ⟨by simpa using h.symm, rfl⟩
  | cons c rest ih =>
    rw [splitSepAux] at h
    by_cases hc : ('/' : Char) = c
    · rw [if_pos ((splitCond_slash c rest).mpr hc)] at h
      have ht := congrArg List.tail h
      simp only [List.tail_cons] at ht
      exact absurd ht (splitSepAux_ne_nil ['/'] rest)
    · rw [if_neg (fun hh => hc ((splitCond_slash c rest).mp hh))] at h
      cases hX : splitSepAux ['/'] rest 0 with
      | nil => exact absurd hX (splitSepAux_ne_nil ['/'] rest)
      | cons piece' t =>
        rw [hX] at h
        have h' : (c :: piece') :: t = [piece] := h
        cases t with
        | nil =>
          have hp : c :: piece' = piece := by simpa using h'
          obtain ⟨hp2, hc2⟩ := ih piece' hX
          constructor
          · rw [← hp, hp2]
          · rw [List.contains_cons, Bool.or_eq_false_iff]
            exact ⟨by simpa using hc, hc2⟩
        | cons d t' => simp at h'

theorem splitSlash_getLast (s : List Char) :
    (splitSepAux ['/'] s 0).getLastD [] = lastSegSlash s := by
  induction s with
  | nil => rfl
  | cons c rest ih =>
    rw [splitSepAux, lastSegSlash]
    by_cases hc : ('/' : Char) = c
    · rw [if_pos ((splitCond_slash c rest).mpr hc),
          if_pos (by simp [← hc]), List.getLastD_cons]
      exact ih
    · have hcd : decide (c = '/') = false :=
        decide_eq_false (fun hh => hc hh.symm)
      rw [if_neg (fun hh => hc ((splitCond_slash c rest).mp hh))]
      cases hX : splitSepAux ['/'] rest 0 with
      | nil => exact absurd hX (splitSepAux_ne_nil ['/'] rest)
      | cons piece t =>
        show ((c :: piece) :: t).getLastD [] = _
        cases t with
        | nil =>
          obtain ⟨hp, hcon⟩ := splitSlash_single_inv rest piece hX
          rw [if_neg (by simp [hcd]; simpa using hcon)]
          simp [List.getLastD_cons, hp]
        | cons d t' =>
          have hcont : rest.contains '/' = true := by
            by_contra hf
            have hsingle := splitSlash_single rest (by simpa using hf)
            rw [hsingle] at hX
            simp at hX
          rw [if_pos (by
            simp only [Bool.or_eq_true]
            exact Or.inr hcont)]
          have e1 : ((c :: piece) :: d :: t').getLastD [] = (d :: t').getLastD [] := by
            rw [List.getLastD_cons]
            exact getLastD_indep d t' (c :: piece) []
          have e2 : (piece :: d :: t').getLastD [] = (d :: t').getLastD [] := by
            rw [List.getLastD_cons]
            exact getLastD_indep d t' piece []
          rw [e1, ← e2, ← hX]
          exact ih

theorem lastSegSlash_ne_nil (s : List Char) (hs : s ≠ [])
    (hl : s.getLast? ≠ some '/') : lastSegSlash s ≠ [] := by
  induction s with
  | nil => exact absurd rfl hs
  | cons c rest ih =>
    rw [lastSegSlash]
    cases rest with
    | nil =>
      have hc : ¬ (c = '/') := by simpa [List.getLast?] using hl
      rw [if_neg (by simp [hc])]
      simp
    | cons d t =>
      by_cases hcase : (decide (c = '/') || (d :: t).contains '/') = true
      · rw [if_pos hcase]
        exact ih (by simp) (by rwa [List.getLast?_cons_cons] at hl)
      · rw [if_neg hcase]
        simp

theorem filter_ne_nil_getLastD (L : List (List Char))
    (h : L.getLastD [] ≠ []) :
    (L.filter (fun p => p ≠ [])).getLastD [] = L.getLastD [] := by
  induction L with
  | nil => exact absurd rfl h
  | cons a L ih =>
    cases L with
    | nil =>
      have ha : a ≠ [] := by simpa [List.getLastD_cons] using h
      simp [List.filter, ha]
    | cons b M =>
      have h2 : (b :: M).getLastD [] ≠ [] := by
        rw [List.getLastD_cons] at h
        rwa [getLastD_indep b M a []] at h
      rw [List.getLastD_cons, getLastD_indep b M a []]
      rw [List.filter_cons]
      by_cases ha : a ≠ []
      · rw [if_pos (by simpa using ha)]
        have hne : (b :: M).filter (fun p => p ≠ []) ≠ [] := by
          intro hf
          have hgl := ih h2
          rw [hf] at hgl
          exact h2 (by simpa using hgl.symm)
        cases hF : (b :: M).filter (fun p => p ≠ []) with
        | nil => exact absurd hF hne
        | cons f F =>
          rw [List.getLastD_cons, getLastD_indep f F a [], ← hF, ih h2]
      · rw [if_neg (by simpa using ha)]
        exact ih h2

/-! Transport between `String` and its character list. -/

theorem getLastD_map_mk (L : List (List Char)) (d : List Char) :
    (L.map String.mk).getLastD (String.mk d) = String.mk (L.getLastD d) := by
  induction L generalizing d with
  | nil => rfl
  | cons a L ih =>
    rw [List.map_cons, List.getLastD_cons, List.getLastD_cons]
    exact ih a

theorem mk_ne_empty_iff (a : List Char) : (String.mk a ≠ "") ↔ a ≠ [] := by
  constructor
  · intro hne he
    exact hne (by rw [he])
  · intro hne he
    exact hne (congrArg String.data he)

theorem filter_map_mk (L : List (List Char)) :
    (L.map String.mk).filter (fun p => p ≠ "")
      = (L.filter (fun p => p ≠ [])).map String.mk := by
  induction L with
  | nil => rfl
  | cons a L ih =>
    rw [List.map_cons, List.filter_cons, List.filter_cons]
    by_cases ha : a = []
    · rw [if_neg (by simp [ha]), if_neg (by simp [ha])]
      exact ih
    · rw [if_pos (by simpa using (mk_ne_empty_iff a).mpr ha),
          if_pos (by simpa using ha), List.map_cons, ih]

theorem productId_char (url : String) :
    productId url = String.mk ((splitSepAux ['/'] url.data 0).getLastD []) := by
  unfold productId pySplitSep splitSepL
  rw [show ("/" : String).data = ['/'] from rfl]
  exact getLastD_map_mk (splitSepAux ['/'] url.data 0) []

theorem finalNonEmptySegment_char (url : String) :
    finalNonEmptySegment url =
      String.mk (((splitSepAux ['/'] url.data 0).filter (fun p => p ≠ [])).getLastD []) := by
  unfold finalNonEmptySegment pySplitSep splitSepL
  rw [show ("/" : String).data = ['/'] from rfl, filter_map_mk]
  exact getLastD_map_mk _ []

/-- For a non-empty URL that does not end with `'/'`, the last `'/'`-split
piece is the final non-empty path segment. -/
theorem productId_eq_finalSeg (url : String) (h1 : url.data ≠ [])
    (h2 : url.data.getLast? ≠ some '/') :
    productId url = finalNonEmptySegment url := by
  rw [productId_char, finalNonEmptySegment_char]
  have hne : (splitSepAux ['/'] url.data 0).getLastD [] ≠ [] := by
    rw [splitSlash_getLast]
    exact lastSegSlash_ne_nil url.data h1 h2
  rw [filter_ne_nil_getLastD _ hne]

/-! Dictionary lemmas. -/

theorem dictLookup_insert_ne {α : Type} (k k' : String) (v : α)
    (d : List (String × α)) (h : k' ≠ k) :
    dictLookup k (dictInsert k' v d) = dictLookup k d := by
  induction d with
  | nil => simp [dictInsert, dictLookup, h]
  | cons kv rest ih =>
    obtain ⟨k'', v''⟩ := kv
    rw [dictInsert]
    by_cases h2 : k'' = k'
    · rw [if_pos h2, dictLookup, dictLookup,
          if_neg (fun hh : k'' = k => h (h2.symm.trans hh)),
          if_neg (fun hh : k'' = k => h (h2.symm.trans hh))]
    · rw [if_neg h2, dictLookup, dictLookup]
      by_cases h3 : k'' = k
      · rw [if_pos h3, if_pos h3]
      · rw [if_neg h3, if_neg h3]
        exact ih

/-! ## Walker invariants -/

theorem linkStep_inv (rec : String → CrawlState → CrawlState)
    (hrec : ∀ url, PreservesInv (rec url)) (href : String) :
    PreservesInv (linkStep rec href) := by
  intro s hs
  unfold linkStep
  by_cases hf : containsSub "/online-bestellen/alle-produkte/" href = true
  · rw [if_pos hf]
    by_cases hv : pyUrljoin baseUrl href ∈ s.visited_urls
    · rw [if_pos hv]
      exact ⟨hs, fun _ h => h⟩
    · rw [if_neg hv]
      exact hrec _ s hs
  · rw [if_neg hf]
    exact ⟨hs, fun _ h => h⟩

theorem scrapeLinks_inv (rec : String → CrawlState → CrawlState)
    (hrec : ∀ url, PreservesInv (rec url)) (links : List String) :
    PreservesInv (scrapeLinks rec links) := by
  induction links with
  | nil => exact fun s hs => ⟨hs, fun _ h => h⟩
  | cons href rest ih =>
    intro s hs
    obtain ⟨h1, h2⟩ := linkStep_inv rec hrec href s hs
    obtain ⟨h3, h4⟩ := ih (linkStep rec href s) h1
    exact ⟨h3, fun u hu => h4 (h2 hu)⟩

theorem storeBreadcrumb_visited (url : String) (bc : Option String)
    (s : CrawlState) :
    (storeBreadcrumb url bc s).visited_urls = s.visited_urls := by
  unfold storeBreadcrumb
  cases bc with
  | none => rfl
  | some path =>
    show (if path = "" then s
      else { s with category_map := dictInsert path url s.category_map }).visited_urls
      = s.visited_urls
    split <;> rfl

theorem storeBreadcrumb_downloads (url : String) (bc : Option String)
    (s : CrawlState) :
    (storeBreadcrumb url bc s).downloads = s.downloads := by
  unfold storeBreadcrumb
  cases bc with
  | none => rfl
  | some path =>
    show (if path = "" then s
      else { s with category_map := dictInsert path url s.category_map }).downloads
      = s.downloads
    split <;> rfl

theorem storeBreadcrumb_inv (url : String) (bc : Option String)
    (s : CrawlState) (hs : WalkerInv s) :
    WalkerInv (storeBreadcrumb url bc s) := by
  unfold WalkerInv
  rw [storeBreadcrumb_visited, storeBreadcrumb_downloads]
  exact hs

theorem scrapeCategoriesStep_inv (site : CategorySite)
    (rec : String → CrawlState → CrawlState)
    (hrec : ∀ url, PreservesInv (rec url)) (url : String) :
    PreservesInv (scrapeCategoriesStep site rec url) := by
  intro s hs
  unfold scrapeCategoriesStep
  by_cases hv : url ∈ s.visited_urls
  · rw [if_pos hv]
    exact ⟨hs, fun _ h => h⟩
  · rw [if_neg hv]
    obtain ⟨hnd, hsub⟩ := hs
    have hnotdl : url ∉ s.downloads := fun hm => hv (hsub url hm)
    have hinv1 : WalkerInv
        { s with visited_urls := url :: s.visited_urls,
                 downloads := s.downloads ++ [url] } := by
      constructor
      · simpa [List.nodup_append] using ⟨hnd, hnotdl⟩
      · intro u hu
        rcases List.mem_append.mp hu with hu1 | hu2
        · exact List.mem_cons_of_mem _ (hsub u hu1)
        · simp only [List.mem_singleton] at hu2
          exact hu2 ▸ List.mem_cons_self url _
    have hgrow1 : s.visited_urls ⊆ url :: s.visited_urls :=
      fun u hu => List.mem_cons_of_mem _ hu
    cases hsite : site url with
    | none => exact ⟨hinv1, hgrow1⟩
    | some page =>
      simp only [hsite]
      obtain ⟨h1, h2⟩ := scrapeLinks_inv rec hrec page.links _
        (storeBreadcrumb_inv url page.breadcrumb _ hinv1)
      refine ⟨h1, fun u hu => h2 ?_⟩
      rw [storeBreadcrumb_visited]
      exact hgrow1 hu

theorem scrapeCategories_inv (site : CategorySite) :
    ∀ fuel url, PreservesInv (scrapeCategories site fuel url) := by
  intro fuel
  induction fuel with
  | zero => exact fun url s hs => ⟨hs, fun _ h => h⟩
  | succ n ih => exact fun url => scrapeCategoriesStep_inv site _ ih url

/-- A rediscovered (already-visited) URL is a no-op for the walker. -/
theorem scrapeCategories_visited (site : CategorySite) (fuel : Nat)
    (url : String) (s : CrawlState) (h : url ∈ s.visited_urls) :
    scrapeCategories site fuel url s = s := by
  cases fuel with
  | zero => rfl
  | succ n =>
    show scrapeCategoriesStep site _ url s = s
    unfold scrapeCategoriesStep
    rw [if_pos h]

/-! ## Pipeline lemmas -/

/-- A successful parse stamps the owning category path into the product. -/
theorem parseProductPage_category (page : ProductPage) (url cp : String)
    (now : Nat) (p : Product) (h : parseProductPage page url cp now = some p) :
    p.category_path = cp := by
  unfold parseProductPage at h
  cases htitle : page.title with
  | none => rw [htitle] at h; exact Option.noConfusion h
  | some t =>
    rw [htitle] at h
    have := Option.some.inj h
    rw [← this]

/-- A successful parse derives the id with `url.split('/')[-1]`. -/
theorem parseProductPage_id (page : ProductPage) (url cp : String)
    (now : Nat) (p : Product) (h : parseProductPage page url cp now = some p) :
    p.id = productId url := by
  unfold parseProductPage at h
  cases htitle : page.title with
  | none => rw [htitle] at h; exact Option.noConfusion h
  | some t =>
    rw [htitle] at h
    have := Option.some.inj h
    rw [← this]

/-- Once a product is cached, the product loop never fetches its URL again
and never alters its cache entry. -/
theorem scrapeProducts_cached (env : ScrapeEnv) (cp : String)
    (u : String) (p : Product) :
    ∀ (urls : List String) (acc : List Product) (st : ScrapeState),
      dictLookup u st.products_cache = some p →
      dictLookup u (scrapeProducts env cp urls acc st).2.products_cache = some p ∧
      (scrapeProducts env cp urls acc st).2.fetched.count u
        = st.fetched.count u := by
  intro urls
  induction urls with
  | nil => exact fun acc st h => ⟨h, rfl⟩
  | cons url rest ih =>
    intro acc st h
    cases hl : dictLookup url st.products_cache with
    | some q =>
      simp only [scrapeProducts, hl]
      exact ih (acc ++ [q]) st h
    | none =>
      have hne : url ≠ u := by
        intro hh
        rw [hh, h] at hl
        exact Option.noConfusion hl
      have hcount : (st.fetched ++ [url]).count u = st.fetched.count u := by
        rw [List.count_append]
        simp [List.count_singleton', hne]
      cases hp : env.productPageOf url with
      | none =>
        simp only [scrapeProducts, hl, hp]
        obtain ⟨a1, a2⟩ := ih acc { st with fetched := st.fetched ++ [url] } h
        exact ⟨a1, a2.trans hcount⟩
      | some page =>
        cases hpp : parseProductPage page url cp env.now with
        | none =>
          simp only [scrapeProducts, hl, hp, hpp]
          obtain ⟨a1, a2⟩ := ih acc { st with fetched := st.fetched ++ [url] } h
          exact ⟨a1, a2.trans hcount⟩
        | some prod =>
          have hcache : dictLookup u
              (dictInsert url prod st.products_cache) = some p := by
            rw [dictLookup_insert_ne u url prod st.products_cache hne, h]
          simp only [scrapeProducts, hl, hp, hpp]
          obtain ⟨a1, a2⟩ := ih (acc ++ [prod])
            { st with fetched := st.fetched ++ [url],
                      products_cache := dictInsert url prod st.products_cache }
            hcache
          exact ⟨a1, a2.trans hcount⟩

/-- A session over two categories whose listings share one product URL:
the product page is fetched and parsed once, the second category reuses
the cached product object, and the fetch log holds the shared URL once. -/
theorem scrapeTwoCats (env : ScrapeEnv) (c1 c2 u : String)
    (page : ProductPage) (pr : Product)
    (h1 : env.listingOf (getCategoryUrl c1) = some [u])
    (h2 : env.listingOf (getCategoryUrl c2) = some [u])
    (hp : env.productPageOf u = some page)
    (hparse : parseProductPage page u c1 env.now = some pr) :
    scrapeAllSelected env [c1, c2] [] {} =
      ([pr, pr], { products_cache := [(u, pr)],
                   fetched := [getCategoryUrl c1, u, getCategoryUrl c2] }) := by
  simp [scrapeAllSelected, scrapeCategory, scrapeProducts, h1, h2, hp, hparse,
        dictLookup, dictInsert]

/-! ## Claims -/

/-- Claim C1, counterexample: `download_page` performs exactly one request
attempt and returns `None` after the first failure even though a second
attempt would have succeeded (`flakyNet 1` is a success); there is no
retry loop, so the claimed ceiling of 3 attempts with backoff does not
exist — 1 attempt is made, not up to 3. -/
theorem claim_C1_counterexample :
    (downloadPage flakyNet).1 = none ∧ (downloadPage flakyNet).2 = 1 ∧
    flakyNet 1 = FetchOutcome.success "recovered" ∧ (1 : Nat) ≠ 3 := by
  decide

/-- Claim C1 (amended): for every URL, `download_page` makes exactly one
request attempt; a success status returns the body, and every failure
(timeout, connection error, or non-success HTTP status raised by
`raise_for_status`) is caught by the `except RequestException` handler and
returned to the caller as `None` without raising; no retry, backoff, or
jitter is performed. -/
theorem claim_C1_amended (net : Nat → FetchOutcome) :
    (downloadPage net).2 = 1 ∧
    (∀ c, net 0 = FetchOutcome.success c → (downloadPage net).1 = some c) ∧
    (∀ e, getAndRaiseForStatus (net 0) = Except.error e →
      (downloadPage net).1 = none) := by
  refine ⟨?_, ?_, ?_⟩
  · cases h : getAndRaiseForStatus (net 0) with
    | ok c => simp [downloadPage, h]
    | error e => simp [downloadPage, h]
  · intro c hc
    have h : getAndRaiseForStatus (net 0) = Except.ok c := by
      rw [hc]
      rfl
    simp [downloadPage, h]
  · intro e he
    simp [downloadPage, he]

theorem claim_C1_witness :
    (downloadPage goodNet).2 = 1 ∧ (downloadPage goodNet).1 = some "body" :=
  ⟨(claim_C1_amended goodNet).1, (claim_C1_amended goodNet).2.1 "body" rfl⟩

/-- Claim C2, counterexample: for the malformed unit-price text
"(abc € / 100g)" the extractor yields `unit_price = none` together with
`unit = "100g"` — not the empty string — because `unit` is assigned from
the text between "/" and ")" before `float` raises. -/
theorem claim_C2_counterexample :
    extractUnitPrice "(abc € / 100g)" = (none, "100g") ∧
    ("100g" : String) ≠ "" := by
  decide

/-- Claim C2 (amended): the well-formed fragment "(3,98 € / 100g)" yields
unit_price = 3.98 and unit = "100g"; an absent fragment yields
(none, "").  A present fragment whose numeric part fails to convert
yields unit_price = none without raising and without aborting the rest of
the extraction, but the unit keeps the text already sliced between "/"
and ")" — possibly non-empty — rather than the empty string. -/
theorem claim_C2_amended :
    extractUnitPrice "(3,98 € / 100g)" = (some (3.98 : ℚ), "100g") ∧
    (∀ page : ProductPage, page.priceUnit = none →
      (extractPriceInfo page).2.1 = none ∧ (extractPriceInfo page).2.2 = "") ∧
    (∀ raw : String,
      pyFloat (pyReplace (pricePartOf (pyStrip raw)) "," ".") = none →
      extractUnitPrice raw = (none, unitPartOf (pyStrip raw))) := by
  refine ⟨?_, ?_, ?_⟩
  · have h : extractUnitPrice "(3,98 € / 100g)" = (some (mkRat 398 100), "100g") := by
      decide
    have hq : mkRat 398 100 = (3.98 : ℚ) := by norm_num
    rw [h, hq]
  · intro page hpU
    simp [extractPriceInfo, hpU]
  · intro raw hfail
    simp [extractUnitPrice, hfail]

theorem claim_C2_witness :
    ((extractPriceInfo {}).2.1 = none ∧ (extractPriceInfo {}).2.2 = "") ∧
    extractUnitPrice "(n/a € / je Beutel)"
      = (none, unitPartOf (pyStrip "(n/a € / je Beutel)")) :=
  ⟨claim_C2_amended.2.1 {} rfl,
   claim_C2_amended.2.2 "(n/a € / je Beutel)" (by decide)⟩

/-- Claim C4: `_parse_value_and_unit` splits the stripped text on
whitespace, converts the first token after comma-to-point replacement,
keeps the second token verbatim as the unit (`none` otherwise), returns
(none, none) for empty input and for a non-numeric first token, and never
raises (it is a total function); "12,5 g" yields (12.5, "g") and "abc"
yields (none, none). -/
theorem claim_C4 :
    (∀ s : String,
      (pySplitWs (pyStrip s) = [] →
        parseValueAndUnit s = { value := none, unit := none }) ∧
      (∀ tok rest, pySplitWs (pyStrip s) = tok :: rest →
        (pyFloat (pyReplace tok "," ".") = none →
          parseValueAndUnit s = { value := none, unit := none }) ∧
        (∀ v, pyFloat (pyReplace tok "," ".") = some v →
          parseValueAndUnit s = { value := some v, unit := rest.head? }))) ∧
    parseValueAndUnit "12,5 g" = { value := some (12.5 : ℚ), unit := some "g" } ∧
    parseValueAndUnit "abc" = { value := none, unit := none } := by
  refine ⟨?_, ?_, by decide⟩
  · intro s
    refine ⟨?_, ?_⟩
    · intro hnil
      simp [parseValueAndUnit, hnil]
    · intro tok rest hcons
      refine ⟨?_, ?_⟩
      · intro hfail
        simp [parseValueAndUnit, hcons, hfail]
      · intro v hv
        simp [parseValueAndUnit, hcons, hv]
  · have h : parseValueAndUnit "12,5 g"
        = { value := some (mkRat 125 10), unit := some "g" } := by decide
    have hq : mkRat 125 10 = (12.5 : ℚ) := by norm_num
    rw [h, hq]

theorem claim_C4_witness :
    parseValueAndUnit "3,98 €" = { value := some (mkRat 398 100), unit := some "€" } ∧
    parseValueAndUnit "" = { value := none, unit := none } :=
  ⟨((claim_C4.1 "3,98 €").2 "3,98" ["€"] (by decide)).2 (mkRat 398 100) (by decide),
   (claim_C4.1 "").1 (by decide)⟩

/-- Claim C5, counterexample: the row ("Energie aus Fett", "2,1 kj") has a
lower-cased label containing "fett" and neither "davon" nor "saturated",
so the claim requires the parsed value in fat_total; the classifier's
earlier energie/energy rule captures the row first and assigns energy_kj,
leaving both fat slots empty. -/
theorem claim_C5_counterexample :
    containsSub "fett" (pyLower "Energie aus Fett") = true ∧
    containsSub "davon" (pyLower "Energie aus Fett") = false ∧
    containsSub "saturated" (pyLower "Energie aus Fett") = false ∧
    (classifyRow {} "Energie aus Fett" "2,1 kj").fat_total = none ∧
    (classifyRow {} "Energie aus Fett" "2,1 kj").fat_saturated = none ∧
    (classifyRow {} "Energie aus Fett" "2,1 kj").energy_kj
      = some { value := some (mkRat 21 10), unit := some "kj" } := by
  decide

/-- Claim C5 (amended): for every nutrition-table row whose lower-cased
label contains "fett" or "fat" *and matches none of the earlier rules*
(no "portion"/"serving", no "energie"/"energy"), the classifier assigns
the parsed value to fat_saturated exactly when the label also contains
"davon" or "saturated", and otherwise to fat_total; the row
("davon gesättigte Fettsäuren", "2,1 g") yields fat_saturated =
(2.1, "g"). -/
theorem claim_C5_amended :
    (∀ (n : NutritionInfo) (label value : String),
      containsSub "portion" (pyLower label) = false →
      containsSub "serving" (pyLower label) = false →
      containsSub "energie" (pyLower label) = false →
      containsSub "energy" (pyLower label) = false →
      (containsSub "fett" (pyLower label) || containsSub "fat" (pyLower label)) = true →
      ((containsSub "davon" (pyLower label)
          || containsSub "saturated" (pyLower label)) = true →
        (classifyRow n label value).fat_saturated = some (parseValueAndUnit value) ∧
        (classifyRow n label value).fat_total = n.fat_total) ∧
      ((containsSub "davon" (pyLower label)
          || containsSub "saturated" (pyLower label)) = false →
        (classifyRow n label value).fat_total = some (parseValueAndUnit value) ∧
        (classifyRow n label value).fat_saturated = n.fat_saturated)) ∧
    (classifyRow {} "davon gesättigte Fettsäuren" "2,1 g").fat_saturated
      = some { value := some (2.1 : ℚ), unit := some "g" } := by
  constructor
  · intro n label value h1 h2 h3 h4 h5
    constructor
    · intro h6
      simp [classifyRow, h1, h2, h3, h4, h5, h6]
    · intro h6
      simp [classifyRow, h1, h2, h3, h4, h5, h6]
  · have h : (classifyRow {} "davon gesättigte Fettsäuren" "2,1 g").fat_saturated
        = some { value := some (mkRat 21 10), unit := some "g" } := by decide
    have hq : mkRat 21 10 = (2.1 : ℚ) := by norm_num
    rw [h, hq]

theorem claim_C5_witness :
    (classifyRow {} "davon gesättigte Fettsäuren" "2,1 g").fat_saturated
      = some (parseValueAndUnit "2,1 g") ∧
    (classifyRow {} "Fett" "5 g").fat_total = some (parseValueAndUnit "5 g") :=
  ⟨((claim_C5_amended.1 {} "davon gesättigte Fettsäuren" "2,1 g"
      (by decide) (by decide) (by decide) (by decide) (by decide)).1 (by decide)).1,
   ((claim_C5_amended.1 {} "Fett" "5 g"
      (by decide) (by decide) (by decide) (by decide) (by decide)).2 (by decide)).1⟩

/-- Claim C6: product-mode parsing returns no Product when the
product-name element is absent (it returns `None` rather than raising —
the function is total); when the name is present, a Product is produced,
and an absent description, ingredients, or allergens region degrades only
that field to `none`, `none`, or `[]` respectively. -/
theorem claim_C6 :
    (∀ (page : ProductPage) (url cp : String) (now : Nat),
      page.title = none → parseProductPage page url cp now = none) ∧
    (∀ (page : ProductPage) (url cp : String) (now : Nat) (t : String),
      page.title = some t →
      parseProductPage page url cp now ≠ none ∧
      ∀ p, parseProductPage page url cp now = some p →
        (page.description = none → p.description = none) ∧
        (page.ingredients = none → p.ingredients = none) ∧
        (page.allergens = none → p.allergens = [])) := by
  constructor
  · intro page url cp now h
    simp [parseProductPage, h]
  · intro page url cp now t h
    constructor
    · simp [parseProductPage, h]
    · intro p hp
      simp only [parseProductPage, h] at hp
      have hinj := Option.some.inj hp
      refine ⟨?_, ?_, ?_⟩
      · intro hd
        rw [← hinj]
        simp [hd]
      · intro hi
        rw [← hinj]
        simp [hi]
      · intro ha
        rw [← hinj]
        simp [ha]

theorem claim_C6_witness :
    parseProductPage {} "u" "c" 0 = none ∧
    parseProductPage demoPage "u" "c" 0 ≠ none :=
  ⟨claim_C6.1 {} "u" "c" 0 rfl,
   (claim_C6.2 demoPage "u" "c" 0 "  Alnatura Bio Sauerkirschen  " rfl).1⟩

/-- Claim C3, counterexample: from the root of `overwriteSite` the walker
fetches `demoA` first (the downloads log shows the order) and stores its
breadcrumb path "Obst" ↦ demoA; the later page `demoB` — a different,
not-yet-visited URL whose breadcrumb yields the same path — overwrites
the mapping, so the final map binds "Obst" to `demoB`, not to the URL of
the first discovery. -/
theorem claim_C3_counterexample :
    (scrapeCategories overwriteSite 3 demoStart {}).downloads
      = [demoStart, demoA, demoB] ∧
    overwriteSite demoA = some { breadcrumb := some "Obst", links := [] } ∧
    overwriteSite demoB = some { breadcrumb := some "Obst", links := [] } ∧
    dictLookup "Obst" (scrapeCategories overwriteSite 3 demoStart {}).category_map
      = some demoB ∧
    demoB ≠ demoA := by
  decide

/-- Claim C3 (amended): the path→URL map has last-discovery-wins
semantics: storing a path is a plain dict assignment, so a later,
not-yet-visited URL whose breadcrumb yields an already-stored path
replaces that path's URL (as the `overwriteSite` run shows); only
rediscovery through an already-visited URL is a no-op, because the walker
returns before fetching. -/
theorem claim_C3_amended :
    (∀ (site : CategorySite) (fuel : Nat) (url : String) (s : CrawlState),
      url ∈ s.visited_urls → scrapeCategories site fuel url s = s) ∧
    (∀ (path url : String) (m : List (String × String)),
      dictLookup path (dictInsert path url m) = some url) ∧
    dictLookup "Obst" (scrapeCategories overwriteSite 3 demoStart {}).category_map
      = some demoB := by
  refine ⟨scrapeCategories_visited, ?_, by decide⟩
  intro path url m
  induction m with
  | nil => simp [dictInsert, dictLookup]
  | cons kv rest ih =>
    obtain ⟨k, v⟩ := kv
    by_cases h : k = path
    · simp [dictInsert, dictLookup, h]
    · simp [dictInsert, dictLookup, h, ih]

theorem claim_C3_witness :
    scrapeCategories overwriteSite 3 demoA
      { visited_urls := [demoA], category_map := [("Obst", demoA)], downloads := [] }
      = { visited_urls := [demoA], category_map := [("Obst", demoA)], downloads := [] } ∧
    dictLookup "Obst" (dictInsert "Obst" demoB [("Obst", demoA)]) = some demoB :=
  ⟨claim_C3_amended.1 overwriteSite 3 demoA
      { visited_urls := [demoA], category_map := [("Obst", demoA)], downloads := [] }
      (by decide),
   claim_C3_amended.2.1 "Obst" demoB [("Obst", demoA)]⟩

/-- Claim C8: for every run of the taxonomy walker, starting from any
state satisfying the visit-once invariant (downloads duplicate-free and
contained in the visited set — in particular the empty initial state),
the invariant still holds afterwards — so no URL is fetched twice and
every fetched URL was marked visited before its fetch — and the visited
set grows monotonically.  On `dupLinkSite`, whose root links twice to the
same URL, the run fetches that URL exactly once. -/
theorem claim_C8 :
    (∀ (site : CategorySite) (fuel : Nat) (url : String) (s : CrawlState),
      WalkerInv s →
      WalkerInv (scrapeCategories site fuel url s) ∧
      s.visited_urls ⊆ (scrapeCategories site fuel url s).visited_urls) ∧
    (scrapeCategories dupLinkSite 3 demoStart {}).downloads
      = [demoStart, demoA] := by
  exact ⟨fun site fuel url s hs => scrapeCategories_inv site fuel url s hs,
         by decide⟩

theorem claim_C8_witness :
    WalkerInv (scrapeCategories overwriteSite 3 demoStart {}) ∧
    ({} : CrawlState).visited_urls
      ⊆ (scrapeCategories overwriteSite 3 demoStart {}).visited_urls :=
  claim_C8.1 overwriteSite 3 demoStart {}
    ⟨List.nodup_nil, fun u hu => absurd hu (List.not_mem_nil u)⟩

/-- Claim C9, counterexample: for a product URL with a trailing slash the
parsed Product's id is `""` — `url.split('/')[-1]` takes the final piece
of the split, which an URL ending in "/" makes empty — while the final
non-empty path segment is "alnatura-bio-sauerkirschen". -/
theorem claim_C9_counterexample :
    (parseProductPage { title := some "Alnatura Bio Sauerkirschen" }
        trailingUrl "Obst" 0).map Product.id = some "" ∧
    finalNonEmptySegment trailingUrl = "alnatura-bio-sauerkirschen" ∧
    ("" : String) ≠ "alnatura-bio-sauerkirschen" := by
  decide

/-- Claim C9 (amended): a parsed Product's id is the final piece of the
"/"-split of its source URL (`url.split('/')[-1]`) — a pure function of
the URL, hence stable for a given URL across runs.  For a non-empty URL
with no trailing slash this equals the final non-empty path segment; a
trailing slash yields the empty id instead. -/
theorem claim_C9_amended :
    (∀ (page : ProductPage) (url cp : String) (now : Nat) (p : Product),
      parseProductPage page url cp now = some p → p.id = productId url) ∧
    (∀ url : String, url.data ≠ [] → url.data.getLast? ≠ some '/' →
      productId url = finalNonEmptySegment url) ∧
    productId trailingUrl = "" := by
  exact ⟨parseProductPage_id, productId_eq_finalSeg, by decide⟩

theorem claim_C9_witness :
    productId okUrl = finalNonEmptySegment okUrl ∧
    (parseProductPage okPage okUrl cat1 7).map Product.id = some (productId okUrl) :=
  ⟨claim_C9_amended.2.1 okUrl (by decide) (by decide),
   by
    have h := claim_C9_amended.1 okPage okUrl cat1 7 okPr (by decide)
    rw [show parseProductPage okPage okUrl cat1 7 = some okPr from by decide,
        show Option.map Product.id (some okPr) = some okPr.id from rfl, h]⟩

/-- Claim C7: the category-path→URL projection is a pure function; the two
implementations (`_get_category_url` and `_create_url_from_category`)
agree on every input.  For a CategoryPath given as labels (no '>' inside a
label, the root-prefix text occurring only as the path's prefix), the
projection lower-cases each label, percent-encodes it, joins the encoded
segments with "/", and places the result under the fixed listing prefix
with a trailing slash — equal paths trivially project to equal URLs since
the projection is a function.  The concrete conjunct shows the lower-case
+ percent-encoding behaviour on a two-level path with a non-ASCII label. -/
theorem claim_C7 :
    (∀ p : String, getCategoryUrl p = createUrlFromCategory p) ∧
    (∀ labels : List String, labels ≠ [] →
      (∀ l ∈ labels, '>' ∉ l.data) →
      containsSub "Alle Produkte > " (joinSep " > " labels) = false →
      getCategoryUrl (joinSep " > " ("Alle Produkte" :: labels))
        = projectorSpec labels) ∧
    getCategoryUrl "Alle Produkte > Obst & Gemüse > Äpfel"
      = "https://www.konsum-leipzig.de/online-bestellen/alle-produkte/obst%20%26%20gem%C3%BCse/%C3%A4pfel/" := by
  refine ⟨fun p => rfl, ?_, by decide⟩
  intro labels hne hcl hnocc
  have hmapne : labels.map String.data ≠ [] := by simpa using hne
  have hclchar : ∀ l ∈ labels.map String.data, '>' ∉ l := by
    intro l hl
    obtain ⟨str, hstr, hdata⟩ := List.mem_map.mp hl
    rw [← hdata]
    exact hcl str hstr
  have hpat : ("Alle Produkte > " : String).data
      = ("Alle Produkte" : String).data ++ [' ', '>', ' '] := by decide
  have hpath : (joinSep " > " ("Alle Produkte" :: labels)).data
      = ("Alle Produkte > " : String).data
        ++ joinSepL [' ', '>', ' '] (labels.map String.data) := by
    show joinSepL [' ', '>', ' ']
        (("Alle Produkte" : String).data :: labels.map String.data) = _
    cases hm : labels.map String.data with
    | nil => exact absurd hm hmapne
    | cons d ds =>
      rw [joinSepL, hpat]
  have hreplace : pyReplace (joinSep " > " ("Alle Produkte" :: labels))
      "Alle Produkte > " "" = joinSep " > " labels := by
    show String.mk (replaceL ("Alle Produkte > " : String).data []
        (joinSep " > " ("Alle Produkte" :: labels)).data) = _
    rw [hpath]
    unfold replaceL
    have hnocc2 : containsSubL ("Alle Produkte > " : String).data
        (joinSepL [' ', '>', ' '] (labels.map String.data)) = false := hnocc
    rw [replaceAux_match _ _ _ (by decide),
        replaceAux_no_occ _ _ _ hnocc2]
    rfl
  have hsplit : pySplitSep (joinSep " > " labels) " > " = labels := by
    show (splitSepAux [' ', '>', ' ']
        (joinSepL [' ', '>', ' '] (labels.map String.data)) 0).map String.mk = labels
    rw [splitSep_gt_join _ hmapne hclchar, List.map_map]
    have hid : (String.mk ∘ String.data) = (id : String → String) :=
      funext (fun s => rfl)
    rw [hid, List.map_id]
  show baseUrl ++ "/online-bestellen/alle-produkte/"
      ++ joinSep "/" ((pySplitSep (pyReplace (joinSep " > " ("Alle Produkte" :: labels))
          "Alle Produkte > " "") " > ").map (fun part => pyQuote (pyLower part)))
      ++ "/" = projectorSpec labels
  rw [hreplace, hsplit]
  rfl

theorem claim_C7_witness :
    getCategoryUrl (joinSep " > " ("Alle Produkte" :: ["Fleisch & Wurst"]))
      = projectorSpec ["Fleisch & Wurst"] :=
  claim_C7.2.1 ["Fleisch & Wurst"] (by decide) (by decide) (by decide)

/-- Claim C10, counterexample: `failUrl` appears in the listings of both
selected categories, but its page download fails; nothing is cached, so
the second category fetches the same product URL again — the fetch log
holds it twice, contradicting "fetched at most once". -/
theorem claim_C10_counterexample :
    failEnv.listingOf (getCategoryUrl cat1) = some [failUrl] ∧
    failEnv.listingOf (getCategoryUrl cat2) = some [failUrl] ∧
    failEnv.productPageOf failUrl = none ∧
    (scrapeAllSelected failEnv [cat1, cat2] [] {}).2.fetched.count failUrl = 2 := by
  decide

/-- Claim C10 (amended): a product URL is cached only once its page has
been fetched *and parsed successfully*; from then on every later category
reuses the cached Product object unchanged — its URL is never fetched
again, its cache entry never changes, and the Product recorded for the
later category carries the category_path of the category processed first.
A URL whose fetch or parse failed is not cached and is fetched again by a
later category. -/
theorem claim_C10_amended :
    (∀ (env : ScrapeEnv) (cp u : String) (p : Product) (urls : List String)
        (acc : List Product) (st : ScrapeState),
      dictLookup u st.products_cache = some p →
      dictLookup u (scrapeProducts env cp urls acc st).2.products_cache = some p ∧
      (scrapeProducts env cp urls acc st).2.fetched.count u
        = st.fetched.count u) ∧
    (∀ (env : ScrapeEnv) (c1 c2 u : String) (page : ProductPage) (pr : Product),
      env.listingOf (getCategoryUrl c1) = some [u] →
      env.listingOf (getCategoryUrl c2) = some [u] →
      env.productPageOf u = some page →
      parseProductPage page u c1 env.now = some pr →
      (scrapeAllSelected env [c1, c2] [] {}).1 = [pr, pr] ∧
      (scrapeAllSelected env [c1, c2] [] {}).2.fetched
        = [getCategoryUrl c1, u, getCategoryUrl c2] ∧
      pr.category_path = c1) := by
  constructor
  · exact fun env cp u p urls acc st h =>
      scrapeProducts_cached env cp u p urls acc st h
  · intro env c1 c2 u page pr h1 h2 hp hparse
    have hrun := scrapeTwoCats env c1 c2 u page pr h1 h2 hp hparse
    refine ⟨?_, ?_, parseProductPage_category page u c1 env.now pr hparse⟩
    · rw [hrun]
    · rw [hrun]

theorem claim_C10_witness :
    (scrapeAllSelected okEnv [cat1, cat2] [] {}).1 = [okPr, okPr] ∧
    (scrapeAllSelected okEnv [cat1, cat2] [] {}).2.fetched
      = [getCategoryUrl cat1, okUrl, getCategoryUrl cat2] ∧
    okPr.category_path = cat1 :=
  claim_C10_amended.2 okEnv cat1 cat2 okUrl okPage okPr
    (by decide) (by decide) (by decide) (by decide)

end Konsum
